import Mathlib

/-!
Verification of the piano-app game engine core
(`src/engine/HitDetection.js`, `src/engine/Scoring.js`,
`src/engine/ChartParser.js`, `src/engine/Transport.js`,
`src/engine/GameEngine.js`).

JavaScript numbers are modelled as rationals (`ℚ`); counters and scores,
which the code only ever touches with integer arithmetic, as naturals.
`Math.floor(n / 10)` on a natural is `n / 10` (truncated division).
Stateful classes become explicit state records; methods become functions
from state to state; `performance.now()` becomes an explicit `now`
argument; thrown exceptions become `Except.error`; the callbacks
(`onUpdate`, `onNoteHit`, `onNoteMiss`, `onFinish`) become an emitted
event list.
-/

deriving instance DecidableEq for Except

namespace Piano

/-! ## HitDetection.js -/

/-- `HitResult` constants. -/
inductive HitResult where
  | perfect
  | great
  | good
  | miss
  | wrong_note
deriving DecidableEq, Repr

/-- Hit window thresholds (`perfect`, `great`, `good`), in ms. -/
structure HitWindows where
  perfect : ℚ
  great : ℚ
  good : ℚ
deriving DecidableEq, Repr

/-- `DEFAULT_HIT_WINDOWS = { perfect: 60, great: 120, good: 180 }`. -/
def DEFAULT_HIT_WINDOWS : HitWindows := { perfect := 60, great := 120, good := 180 }

/-- `classifyHit(deltaMs, correctNote, windows)`. -/
def classifyHit (deltaMs : ℚ) (correctNote : Bool) (windows : HitWindows) : HitResult :=
  if !correctNote then
    HitResult.wrong_note
  else
    let absDelta := |deltaMs|
    if absDelta ≤ windows.perfect then HitResult.perfect
    else if absDelta ≤ windows.great then HitResult.great
    else if absDelta ≤ windows.good then HitResult.good
    else HitResult.miss

/-- `isNoteMissed(noteTimeMs, currentTimeMs, windows)`. -/
def isNoteMissed (noteTimeMs currentTimeMs : ℚ) (windows : HitWindows) : Bool :=
  currentTimeMs > noteTimeMs + windows.good

/-- `isNoteHittable(noteTimeMs, currentTimeMs, windows)`. -/
def isNoteHittable (noteTimeMs currentTimeMs : ℚ) (windows : HitWindows) : Bool :=
  |currentTimeMs - noteTimeMs| ≤ windows.good

/-! ## Scoring.js -/

/-- `BASE_SCORES` table. -/
def BASE_SCORES : HitResult → ℕ
  | HitResult.perfect => 100
  | HitResult.great => 70
  | HitResult.good => 40
  | HitResult.miss => 0
  | HitResult.wrong_note => 0

/-- `STREAK_CONFIG.notesPerMultiplier`. -/
def notesPerMultiplier : ℕ := 10

/-- `STREAK_CONFIG.maxMultiplier`. -/
def maxMultiplier : ℕ := 4

/-- Shared shape of `kind === MISS || kind === WRONG_NOTE`. -/
def isMissKind (r : HitResult) : Bool :=
  r == HitResult.miss || r == HitResult.wrong_note

/-- The `noteInfo` context recorded with a hit:
`{noteId, expectedMidi, actualMidi, deltaMs}` (`actualMidi` is `null` for
misses detected by the update sweep, hence `Option`). -/
structure NoteInfo where
  noteId : String
  expectedMidi : ℚ
  actualMidi : Option ℚ
  deltaMs : ℚ
deriving DecidableEq, Repr

/-- One `mistakes` entry: the spread `{...noteInfo, hitResult}`. -/
structure Mistake where
  info : NoteInfo
  hitResult : HitResult
deriving DecidableEq, Repr

/-- The `hitCounts` map; all five kinds are always present. -/
structure HitCounts where
  perfect : ℕ
  great : ℕ
  good : ℕ
  miss : ℕ
  wrong_note : ℕ
deriving DecidableEq, Repr

/-- Read `hitCounts[kind]`. -/
def HitCounts.get (c : HitCounts) : HitResult → ℕ
  | HitResult.perfect => c.perfect
  | HitResult.great => c.great
  | HitResult.good => c.good
  | HitResult.miss => c.miss
  | HitResult.wrong_note => c.wrong_note

/-- `hitCounts[kind]++`. -/
def HitCounts.inc (c : HitCounts) : HitResult → HitCounts
  | HitResult.perfect => { c with perfect := c.perfect + 1 }
  | HitResult.great => { c with great := c.great + 1 }
  | HitResult.good => { c with good := c.good + 1 }
  | HitResult.miss => { c with miss := c.miss + 1 }
  | HitResult.wrong_note => { c with wrong_note := c.wrong_note + 1 }

/-- The mutable fields of a `ScoringEngine` instance. -/
structure ScoringEngine where
  score : ℕ
  streak : ℕ
  maxStreak : ℕ
  hitCounts : HitCounts
  totalNotes : ℕ
  mistakes : List Mistake
deriving DecidableEq, Repr

/-- `ScoringEngine.reset()` / the state after `new ScoringEngine()`. -/
def ScoringEngine.reset : ScoringEngine :=
  { score := 0, streak := 0, maxStreak := 0
    hitCounts := { perfect := 0, great := 0, good := 0, miss := 0, wrong_note := 0 }
    totalNotes := 0, mistakes := [] }

/-- `ScoringEngine.getMultiplier()`:
`min(1 + floor(streak / notesPerMultiplier), maxMultiplier)`. -/
def ScoringEngine.getMultiplier (s : ScoringEngine) : ℕ :=
  min (1 + s.streak / notesPerMultiplier) maxMultiplier

/-- The object returned by `recordHit`. -/
structure ScoreResult where
  points : ℕ
  multiplier : ℕ
  newStreak : ℕ
  basePoints : ℕ
deriving DecidableEq, Repr

/-- `ScoringEngine.recordHit(hitResult, noteInfo)`: returns the updated
state together with `{points, multiplier, newStreak, basePoints}`. -/
def ScoringEngine.recordHit (s : ScoringEngine) (hitResult : HitResult)
    (noteInfo : Option NoteInfo) : ScoringEngine × ScoreResult :=
  let s := { s with hitCounts := s.hitCounts.inc hitResult, totalNotes := s.totalNotes + 1 }
  let s :=
    if isMissKind hitResult then
      let s :=
        match noteInfo with
        | some info => { s with mistakes := s.mistakes ++ [(⟨info, hitResult⟩ : Mistake)] }
        | none => s
      { s with streak := 0 }
    else
      let s := { s with streak := s.streak + 1 }
      { s with maxStreak := max s.maxStreak s.streak }
  let multiplier := s.getMultiplier
  let basePoints := BASE_SCORES hitResult
  let points := basePoints * multiplier
  let s := { s with score := s.score + points }
  (s, { points := points, multiplier := multiplier, newStreak := s.streak, basePoints := basePoints })

/-- The object returned by the pure `calculateScore`. -/
structure CalcResult where
  points : ℕ
  multiplier : ℕ
  basePoints : ℕ
deriving DecidableEq, Repr

/-- `calculateScore(hitResult, streak)` (pure companion function). -/
def calculateScore (hitResult : HitResult) (streak : ℕ) : CalcResult :=
  let effectiveStreak := if isMissKind hitResult then 0 else streak
  let multiplier := min (1 + effectiveStreak / notesPerMultiplier) maxMultiplier
  let basePoints := BASE_SCORES hitResult
  { points := basePoints * multiplier, multiplier := multiplier, basePoints := basePoints }

end Piano

namespace Piano

/-! ## Theorems: scoring and hit classification -/

/-- C10: under the default windows, `classifyHit(d, true)` is PERFECT iff
`|d| ≤ 60`, GREAT iff `60 < |d| ≤ 120`, GOOD iff `120 < |d| ≤ 180`, MISS
iff `|d| > 180` (boundaries inclusive on the better classification), and
`classifyHit(d, false)` is WRONG_NOTE for every delta. -/
theorem C10_classifyHit_windows (d : ℚ) :
    (classifyHit d true DEFAULT_HIT_WINDOWS = HitResult.perfect ↔ |d| ≤ 60) ∧
    (classifyHit d true DEFAULT_HIT_WINDOWS = HitResult.great ↔ 60 < |d| ∧ |d| ≤ 120) ∧
    (classifyHit d true DEFAULT_HIT_WINDOWS = HitResult.good ↔ 120 < |d| ∧ |d| ≤ 180) ∧
    (classifyHit d true DEFAULT_HIT_WINDOWS = HitResult.miss ↔ 180 < |d|) ∧
    classifyHit d false DEFAULT_HIT_WINDOWS = HitResult.wrong_note := by
  have h5 : classifyHit d false DEFAULT_HIT_WINDOWS = HitResult.wrong_note := rfl
  have hcases :
      classifyHit d true DEFAULT_HIT_WINDOWS =
        (if |d| ≤ 60 then HitResult.perfect
         else if |d| ≤ 120 then HitResult.great
         else if |d| ≤ 180 then HitResult.good
         else HitResult.miss) := rfl
  rw [hcases]
  refine ⟨?_, ?_, ?_, ?_, h5⟩ <;>
    split_ifs with h1 h2 h3 <;>
      simp_all <;>
        first
          | linarith
          | exact ⟨by linarith, by linarith⟩
          | (intro h; linarith)

end Piano

namespace Piano

/-- Flat form of `recordHit`, used to keep later proofs small. -/
theorem recordHit_eq (s : ScoringEngine) (k : HitResult) (ctx : Option NoteInfo) :
    s.recordHit k ctx =
      (if isMissKind k then
         ({ score := s.score + BASE_SCORES k * min (1 + 0 / notesPerMultiplier) maxMultiplier,
            streak := 0, maxStreak := s.maxStreak,
            hitCounts := s.hitCounts.inc k, totalNotes := s.totalNotes + 1,
            mistakes :=
              match ctx with
              | some i => s.mistakes ++ [(⟨i, k⟩ : Mistake)]
              | none => s.mistakes },
          { points := BASE_SCORES k * min (1 + 0 / notesPerMultiplier) maxMultiplier,
            multiplier := min (1 + 0 / notesPerMultiplier) maxMultiplier,
            newStreak := 0, basePoints := BASE_SCORES k })
       else
         ({ score := s.score
              + BASE_SCORES k * min (1 + (s.streak + 1) / notesPerMultiplier) maxMultiplier,
            streak := s.streak + 1, maxStreak := max s.maxStreak (s.streak + 1),
            hitCounts := s.hitCounts.inc k, totalNotes := s.totalNotes + 1,
            mistakes := s.mistakes },
          { points := BASE_SCORES k * min (1 + (s.streak + 1) / notesPerMultiplier) maxMultiplier,
            multiplier := min (1 + (s.streak + 1) / notesPerMultiplier) maxMultiplier,
            newStreak := s.streak + 1, basePoints := BASE_SCORES k })) := by
  cases k <;> cases ctx <;> rfl

set_option maxHeartbeats 3200000 in
/-- C1: `recordHit(k, ctx)` increments `hitCounts[k]` and `totalNotes`;
for MISS/WRONG_NOTE it appends `ctx` (when supplied) to `mistakes` and
resets the streak, otherwise it increments the streak and updates
`maxStreak`; the multiplier is computed from the post-update streak as
`min(1 + streak/10, 4)`, `points = basePoints(k) × multiplier` is added
to the score, and `{points, multiplier, newStreak, basePoints}` is
returned; in particular a success from streak 9 already scores at 2x. -/
theorem C1_recordHit_spec (s : ScoringEngine) (k : HitResult) (ctx : Option NoteInfo) :
    ((s.recordHit k ctx).1.hitCounts.get k = s.hitCounts.get k + 1) ∧
    (∀ k', k' ≠ k → (s.recordHit k ctx).1.hitCounts.get k' = s.hitCounts.get k') ∧
    ((s.recordHit k ctx).1.totalNotes = s.totalNotes + 1) ∧
    (isMissKind k = true →
       (s.recordHit k ctx).1.streak = 0 ∧
       (s.recordHit k ctx).1.mistakes
         = s.mistakes ++ (match ctx with | some c => [(⟨c, k⟩ : Mistake)] | none => []) ∧
       (s.recordHit k ctx).1.maxStreak = s.maxStreak) ∧
    (isMissKind k = false →
       (s.recordHit k ctx).1.streak = s.streak + 1 ∧
       (s.recordHit k ctx).1.maxStreak = max s.maxStreak (s.streak + 1) ∧
       (s.recordHit k ctx).1.mistakes = s.mistakes) ∧
    ((s.recordHit k ctx).2.multiplier = min (1 + (s.recordHit k ctx).1.streak / 10) 4) ∧
    ((s.recordHit k ctx).2.basePoints = BASE_SCORES k) ∧
    ((s.recordHit k ctx).2.points = BASE_SCORES k * (s.recordHit k ctx).2.multiplier) ∧
    ((s.recordHit k ctx).2.newStreak = (s.recordHit k ctx).1.streak) ∧
    ((s.recordHit k ctx).1.score = s.score + (s.recordHit k ctx).2.points) ∧
    (s.streak = 9 → isMissKind k = false → (s.recordHit k ctx).2.multiplier = 2) := by
  cases k <;> cases ctx <;>
    refine ⟨?_, ?_, ?_, ?_, ?_, ?_, ?_, ?_, ?_, ?_, ?_⟩ <;>
      simp [recordHit_eq, HitCounts.inc, HitCounts.get,
        isMissKind, notesPerMultiplier, maxMultiplier, BASE_SCORES] <;>
      first
        | omega
        | (intro k' hk'
           cases k' <;> simp_all [HitCounts.get])

end Piano

namespace Piano

/-- A scoring state nine successes into a streak, as produced by nine
consecutive PERFECT hits from reset. -/
def streak9State : ScoringEngine :=
  { score := 900, streak := 9, maxStreak := 9
    hitCounts := { perfect := 9, great := 0, good := 0, miss := 0, wrong_note := 0 }
    totalNotes := 9, mistakes := [] }

/-- C2 counterexample: with prior streak 9, the pure `calculateScore`
gives 100 points at 1x, while `recordHit` on a state with streak 9 gives
200 points at 2x (it computes the multiplier from the incremented
streak). The claimed equivalence fails at this input. -/
theorem C2_counterexample :
    (calculateScore HitResult.perfect 9).points = 100 ∧
    (calculateScore HitResult.perfect 9).multiplier = 1 ∧
    streak9State.streak = 9 ∧
    (streak9State.recordHit HitResult.perfect none).2.points = 200 ∧
    (streak9State.recordHit HitResult.perfect none).2.multiplier = 2 := by
  decide

/-- C2 amended: `calculateScore(k, s)` returns the same points and
multiplier as `recordHit(k)` on a state with streak `s` whenever `k` is
MISS/WRONG_NOTE, or `s mod 10 ≠ 9`, or `s ≥ 39`; at the excluded inputs
(a success when `s mod 10 = 9` below the cap) `recordHit` is one
multiplier step higher because only it increments the streak before
computing the multiplier. -/
theorem C2_calculateScore_agrees (k : HitResult) (s : ScoringEngine) (ctx : Option NoteInfo)
    (h : isMissKind k = true ∨ s.streak % 10 ≠ 9 ∨ 39 ≤ s.streak) :
    (calculateScore k s.streak).points = (s.recordHit k ctx).2.points ∧
    (calculateScore k s.streak).multiplier = (s.recordHit k ctx).2.multiplier := by
  rw [recordHit_eq]
  cases k <;> cases ctx <;>
    simp_all [calculateScore, isMissKind, notesPerMultiplier, maxMultiplier, BASE_SCORES] <;>
    omega

/-- Witness for C2's amended theorem at a concrete input: the fresh
scoring state (streak 0) and a PERFECT hit. -/
theorem C2_calculateScore_agrees_witness :
    (calculateScore HitResult.perfect ScoringEngine.reset.streak).points
      = (ScoringEngine.reset.recordHit HitResult.perfect none).2.points ∧
    (calculateScore HitResult.perfect ScoringEngine.reset.streak).multiplier
      = (ScoringEngine.reset.recordHit HitResult.perfect none).2.multiplier :=
  C2_calculateScore_agrees HitResult.perfect ScoringEngine.reset none (by decide)

end Piano

namespace Piano

/-- Witness for C1 at a concrete input: the success that takes the streak
from 9 to 10 already scores at the 2x multiplier. -/
theorem C1_recordHit_spec_witness :
    (streak9State.recordHit HitResult.perfect none).2.multiplier = 2 :=
  (C1_recordHit_spec streak9State HitResult.perfect none).2.2.2.2.2.2.2.2.2.2
    rfl (by decide)

end Piano

namespace Piano

/-! ## ChartParser.js -/

/-- `MIDI_TO_NOTE` lookup table (MIDI number to note name). -/
def MIDI_TO_NOTE : List (ℚ × String) :=
  [(48, "C3"), (49, "C#3"), (50, "D3"), (51, "D#3"), (52, "E3"), (53, "F3"),
   (54, "F#3"), (55, "G3"), (56, "G#3"), (57, "A3"), (58, "A#3"), (59, "B3"),
   (60, "C4"), (61, "C#4"), (62, "D4"), (63, "D#4"), (64, "E4"), (65, "F4"),
   (66, "F#4"), (67, "G4"), (68, "G#4"), (69, "A4"), (70, "A#4"), (71, "B4"),
   (72, "C5"), (73, "C#5"), (74, "D5"), (75, "D#5"), (76, "E5"), (77, "F5")]

/-- `MIDI_TO_NOTE[midi] || "M" + midi`. The numeric rendering of the
fallback label differs from JavaScript for non-integers, which no claim
depends on. -/
def midiName (m : ℚ) : String :=
  match MIDI_TO_NOTE.find? (fun p => p.1 == m) with
  | some p => p.2
  | none => "M" ++ toString m

/-- One element of a raw chart's `notes` array. A field holds `none` when
it is absent or not a number (the only distinction `parseChart` makes via
its `typeof` checks). -/
structure RawNote where
  timeMs : Option ℚ
  time : Option ℚ
  durationMs : Option ℚ
  duration : Option ℚ
  midi : Option ℚ
deriving DecidableEq, Repr

/-- A parsed note as built by `parseChart` (and, with `hit`/`hitResult`
re-initialised, the engine's working copy). -/
structure Note where
  id : String
  timeMs : ℚ
  midi : ℚ
  durationMs : ℚ
  noteName : String
  hit : Bool
  hitResult : Option HitResult
deriving DecidableEq, Repr

/-- The parsed chart `{notes, duration, noteCount}`. -/
structure Chart where
  notes : List Note
  duration : ℚ
  noteCount : ℕ
deriving DecidableEq, Repr

/-- The index-qualified `invalid timeMs` error message. -/
def timeErrMsg (i : ℕ) : String :=
  "Invalid note at index " ++ toString i ++ ": invalid timeMs"

/-- The index-qualified `invalid midi number` error message. -/
def midiErrMsg (i : ℕ) : String :=
  "Invalid note at index " ++ toString i ++ ": invalid midi number"

/-- The body of `parseChart`'s `map` callback for the element at original
index `i`: alias resolution, validation, note construction. -/
def parseNote (i : ℕ) (note : RawNote) : Except String Note :=
  let timeMs := note.timeMs.orElse (fun _ => note.time)
  let durationMs := (note.durationMs.orElse (fun _ => note.duration)).getD 400
  match timeMs with
  | none => Except.error (timeErrMsg i)
  | some t =>
    if t < 0 then Except.error (timeErrMsg i)
    else
      match note.midi with
      | none => Except.error (midiErrMsg i)
      | some m =>
        if m < 0 ∨ 127 < m then Except.error (midiErrMsg i)
        else Except.ok
          { id := "note-" ++ toString i, timeMs := t, midi := m, durationMs := durationMs
            noteName := midiName m, hit := false, hitResult := none }

/-- `chartData.notes.map((note, index) => ...)` starting at index `i`:
stops at the first thrown validation error. -/
def parseNotes (i : ℕ) : List RawNote → Except String (List Note)
  | [] => Except.ok []
  | n :: rest =>
      match parseNote i n with
      | Except.error e => Except.error e
      | Except.ok pn =>
          match parseNotes (i + 1) rest with
          | Except.error e => Except.error e
          | Except.ok prest => Except.ok (pn :: prest)

/-- The sort comparator `(a, b) => a.timeMs - b.timeMs` (ascending by
`timeMs`; the engine's `Array.prototype.sort` is stable, modelled by a
stable merge sort). -/
def noteLe (a b : Note) : Bool := decide (a.timeMs ≤ b.timeMs)

/-- `parseChart(chartData)`. `none` input covers both a missing/null
`chartData` and a `notes` field that is not an array. -/
def parseChart (chartData : Option (List RawNote)) : Except String Chart :=
  match chartData with
  | none => Except.error "Invalid chart: missing notes array"
  | some rawNotes =>
    match parseNotes 0 rawNotes with
    | Except.error e => Except.error e
    | Except.ok parsedNotes =>
        let sorted := parsedNotes.mergeSort noteLe
        Except.ok
          { notes := sorted
            duration :=
              match sorted.getLast? with
              | some n => n.timeMs + n.durationMs
              | none => 0
            noteCount := sorted.length }

/-- Validity of one raw note as `parseChart` checks it: a resolved
non-negative numeric `timeMs` and a numeric `midi` in `[0, 127]`
(integrality of `midi` is not checked). -/
def noteOk (n : RawNote) : Bool :=
  match n.timeMs.orElse (fun _ => n.time) with
  | none => false
  | some t =>
      !(decide (t < 0)) &&
        (match n.midi with
         | none => false
         | some m => !(decide (m < 0)) && !(decide (127 < m)))

/-- Modelled from the spec: the chart `duration` as the specification
defines it in its data model — "max over notes of `timeMs+durationMs`".
Used only to compare the specified duration against the one the code
computes. -/
def specChartDuration (notes : List Note) : ℚ :=
  notes.foldr (fun n acc => max (n.timeMs + n.durationMs) acc) 0

end Piano

namespace Piano

/-- The comparator is transitive. -/
theorem noteLe_trans (a b c : Note) (h1 : noteLe a b = true) (h2 : noteLe b c = true) :
    noteLe a c = true := by
  simp only [noteLe, decide_eq_true_eq] at *
  exact le_trans h1 h2

/-- The comparator is total. -/
theorem noteLe_total (a b : Note) : (noteLe a b || noteLe b a) = true := by
  simp only [noteLe, Bool.or_eq_true, decide_eq_true_eq]
  exact le_total _ _

/-- First raw note of the C3 counterexample chart: starts at 0 ms but
sustains 5000 ms. -/
def c3raw : List RawNote :=
  [{ timeMs := some 0, time := none, durationMs := some 5000, duration := none, midi := some 60 },
   { timeMs := some 1000, time := none, durationMs := some 100, duration := none, midi := some 62 }]

/-- Parsed form of `c3raw[0]`. -/
def c3n0 : Note :=
  { id := "note-0", timeMs := 0, midi := 60, durationMs := 5000, noteName := "C4"
    hit := false, hitResult := none }

/-- Parsed form of `c3raw[1]`. -/
def c3n1 : Note :=
  { id := "note-1", timeMs := 1000, midi := 62, durationMs := 100, noteName := "D4"
    hit := false, hitResult := none }

/-- The value `parseChart` computes on `c3raw`. -/
theorem parseChart_c3raw_eq :
    parseChart (some c3raw) = Except.ok { notes := [c3n0, c3n1], duration := 1100, noteCount := 2 } := by
  have h1 : parseNotes 0 c3raw = Except.ok [c3n0, c3n1] := by decide
  have hsort : List.mergeSort [c3n0, c3n1] noteLe = [c3n0, c3n1] :=
    List.mergeSort_of_sorted (by decide)
  simp only [parseChart]
  rw [h1]
  simp only [hsort]
  norm_num [c3n1]

/-- C3 counterexample: for a chart whose first note ends at 5000 ms while
the last-sorted note ends at 1100 ms, `parseChart` reports duration 1100
(the end time of the last-sorted note), not the spec's max end-time 5000
over all notes. -/
theorem C3_counterexample :
    (parseChart (some c3raw)).toOption.map Chart.duration = some 1100 ∧
    (parseChart (some c3raw)).toOption.map (fun c => specChartDuration c.notes) = some 5000 ∧
    (1100 : ℚ) ≠ 5000 := by
  rw [parseChart_c3raw_eq]
  refine ⟨rfl, ?_, by norm_num⟩
  simp [specChartDuration, c3n0, c3n1, Except.toOption]
  norm_num

end Piano

namespace Piano

/-- C3 amended: for every raw chart accepted by `parseChart`, the
returned notes are a stable ascending sort by `timeMs` of the notes built
in input order (ties keep relative input order), `duration` equals the
end time `timeMs + durationMs` of the **last note in the sorted order**
(not the max end-time over all notes), `noteCount` is the note count, and
an empty notes array yields `{notes: [], duration: 0, noteCount: 0}`. -/
theorem C3_parseChart_shape (raw : List RawNote) (c : Chart)
    (h : parseChart (some raw) = Except.ok c) :
    List.Pairwise (fun a b : Note => a.timeMs ≤ b.timeMs) c.notes ∧
    (∃ ns, parseNotes 0 raw = Except.ok ns ∧
       c.notes.Perm ns ∧
       (∀ a b : Note, List.Sublist [a, b] ns → a.timeMs ≤ b.timeMs →
          List.Sublist [a, b] c.notes)) ∧
    c.duration =
      (match c.notes.getLast? with
       | some n => n.timeMs + n.durationMs
       | none => 0) ∧
    c.noteCount = c.notes.length ∧
    (raw = [] → c.notes = [] ∧ c.duration = 0 ∧ c.noteCount = 0) := by
  simp only [parseChart] at h
  cases hp : parseNotes 0 raw with
  | error e => rw [hp] at h; exact absurd h (by simp)
  | ok ns =>
    rw [hp] at h
    simp only [Except.ok.injEq] at h
    subst h
    refine ⟨?_, ⟨ns, rfl, ?_, ?_⟩, rfl, rfl, ?_⟩
    · exact (List.sorted_mergeSort noteLe_trans noteLe_total ns).imp
        (fun hab => by simpa [noteLe] using hab)
    · exact List.mergeSort_perm ns noteLe
    · intro a b hsub hle
      exact List.pair_sublist_mergeSort noteLe_trans noteLe_total
        (by simpa [noteLe] using hle) hsub
    · intro hraw
      subst hraw
      simp only [parseNotes, Except.ok.injEq] at hp
      subst hp
      simp [List.mergeSort_nil]

/-- Witness for C3's amended theorem at the concrete two-note chart
`c3raw`, whose parse was computed in `parseChart_c3raw_eq`. -/
theorem C3_parseChart_shape_witness :
    List.Pairwise (fun a b : Note => a.timeMs ≤ b.timeMs)
      (Chart.mk [c3n0, c3n1] 1100 2).notes ∧
    (∃ ns, parseNotes 0 c3raw = Except.ok ns ∧
       (Chart.mk [c3n0, c3n1] 1100 2).notes.Perm ns ∧
       (∀ a b : Note, List.Sublist [a, b] ns → a.timeMs ≤ b.timeMs →
          List.Sublist [a, b] (Chart.mk [c3n0, c3n1] 1100 2).notes)) ∧
    (Chart.mk [c3n0, c3n1] 1100 2).duration =
      (match (Chart.mk [c3n0, c3n1] 1100 2).notes.getLast? with
       | some n => n.timeMs + n.durationMs
       | none => 0) ∧
    (Chart.mk [c3n0, c3n1] 1100 2).noteCount = (Chart.mk [c3n0, c3n1] 1100 2).notes.length ∧
    (c3raw = [] →
      (Chart.mk [c3n0, c3n1] 1100 2).notes = [] ∧
      (Chart.mk [c3n0, c3n1] 1100 2).duration = 0 ∧
      (Chart.mk [c3n0, c3n1] 1100 2).noteCount = 0) :=
  C3_parseChart_shape c3raw (Chart.mk [c3n0, c3n1] 1100 2) parseChart_c3raw_eq

end Piano

namespace Piano

/-- `parseNote` succeeds exactly on valid raw notes, independently of the
index. -/
theorem parseNote_isOk (i : ℕ) (n : RawNote) :
    (parseNote i n).toOption.isSome = noteOk n := by
  unfold parseNote noteOk
  cases ht : n.timeMs.orElse (fun _ => n.time) with
  | none => rfl
  | some t =>
    cases hm : n.midi with
    | none => by_cases h1 : t < 0 <;> simp [h1, Except.toOption]
    | some m =>
      by_cases h1 : t < 0
      · simp [h1, Except.toOption]
      · by_cases h2 : m < 0
        · simp [h1, h2, Except.toOption]
        · by_cases h3 : 127 < m <;> simp [h1, h2, h3, Except.toOption]

/-- A `parseNote` failure carries one of the two index-qualified
messages. -/
theorem parseNote_error_msg (i : ℕ) (n : RawNote) (e : String)
    (h : parseNote i n = Except.error e) :
    e = timeErrMsg i ∨ e = midiErrMsg i := by
  unfold parseNote at h
  cases ht : n.timeMs.orElse (fun _ => n.time) <;> rw [ht] at h <;> dsimp only at h
  · exact Or.inl (Except.error.inj h).symm
  · split_ifs at h with h1
    · exact Or.inl (Except.error.inj h).symm
    · cases hm : n.midi <;> rw [hm] at h <;> dsimp only at h
      · exact Or.inr (Except.error.inj h).symm
      · split_ifs at h with h2
        · exact Or.inr (Except.error.inj h).symm

/-- `parseNotes` succeeds exactly when every raw note is valid. -/
theorem parseNotes_isOk (l : List RawNote) (i : ℕ) :
    (parseNotes i l).toOption.isSome = l.all noteOk := by
  induction l generalizing i with
  | nil => rfl
  | cons n rest ih =>
    have hn := parseNote_isOk i n
    unfold parseNotes
    cases hpn : parseNote i n with
    | error e =>
      rw [hpn] at hn
      simp only [Except.toOption, Option.isSome] at hn ⊢
      simp [List.all_cons, ← hn]
    | ok pn =>
      rw [hpn] at hn
      simp only [Except.toOption, Option.isSome] at hn
      cases hr : parseNotes (i + 1) rest with
      | error e =>
        have := ih (i + 1)
        rw [hr] at this
        simp only [Except.toOption, Option.isSome] at this ⊢
        simp [List.all_cons, ← hn, ← this]
      | ok prest =>
        have := ih (i + 1)
        rw [hr] at this
        simp only [Except.toOption, Option.isSome] at this ⊢
        simp [List.all_cons, ← hn, ← this]

/-- A `parseNotes` failure is index-qualified within the list. -/
theorem parseNotes_error_msg (l : List RawNote) (i : ℕ) (e : String)
    (h : parseNotes i l = Except.error e) :
    ∃ j, j < l.length ∧ (e = timeErrMsg (i + j) ∨ e = midiErrMsg (i + j)) := by
  induction l generalizing i with
  | nil => simp [parseNotes] at h
  | cons n rest ih =>
    unfold parseNotes at h
    cases hpn : parseNote i n with
    | error e2 =>
      rw [hpn] at h
      have he : e = e2 := (Except.error.inj h).symm
      subst he
      exact ⟨0, by simp, by simpa using parseNote_error_msg i n e hpn⟩
    | ok pn =>
      rw [hpn] at h
      cases hr : parseNotes (i + 1) rest with
      | error e2 =>
        rw [hr] at h
        have he : e = e2 := (Except.error.inj h).symm
        subst he
        obtain ⟨j, hj, hmsg⟩ := ih (i + 1) hr
        exact ⟨j + 1, by simpa using Nat.succ_lt_succ hj,
          by rwa [show i + 1 + j = i + (j + 1) by omega] at hmsg⟩
      | ok prest => rw [hr] at h; simp at h

/-- `parseChart` succeeds exactly when every raw note is valid. -/
theorem parseChart_isOk (l : List RawNote) :
    (parseChart (some l)).toOption.isSome = l.all noteOk := by
  have := parseNotes_isOk l 0
  simp only [parseChart]
  cases hp : parseNotes 0 l with
  | error e =>
    rw [hp] at this
    simpa [Except.toOption] using this
  | ok ns =>
    rw [hp] at this
    simpa [Except.toOption] using this

/-- C8 amended: `parseChart` succeeds iff every input note has a resolved
non-negative numeric `timeMs` and a numeric `midi` in `[0,127]`;
integrality of `midi` is **not** checked (a non-integer such as 60.5 is
accepted); any failure carries an index-qualified message and, the result
being a single error value, no partial chart is returned. -/
theorem C8_parseChart_validation (l : List RawNote) :
    ((parseChart (some l)).toOption.isSome = l.all noteOk) ∧
    (∀ e, parseChart (some l) = Except.error e →
        ∃ j, j < l.length ∧ (e = timeErrMsg j ∨ e = midiErrMsg j)) := by
  refine ⟨parseChart_isOk l, ?_⟩
  intro e he
  simp only [parseChart] at he
  cases hp : parseNotes 0 l with
  | error e2 =>
    rw [hp] at he
    have heq : e = e2 := (Except.error.inj he).symm
    subst heq
    simpa using parseNotes_error_msg l 0 e hp
  | ok ns => rw [hp] at he; simp at he

/-- A raw note with no resolvable numeric `timeMs`. -/
def c8badTime : RawNote :=
  { timeMs := none, time := none, durationMs := none, duration := none, midi := some 60 }

/-- Witness for C8's amended theorem at a concrete one-note chart whose
`timeMs` is missing; the error is qualified with index 0. -/
theorem C8_parseChart_validation_witness :
    ((parseChart (some [c8badTime])).toOption.isSome = [c8badTime].all noteOk) ∧
    (∃ j, j < [c8badTime].length ∧
      (timeErrMsg 0 = timeErrMsg j ∨ timeErrMsg 0 = midiErrMsg j)) :=
  ⟨(C8_parseChart_validation [c8badTime]).1,
   (C8_parseChart_validation [c8badTime]).2 (timeErrMsg 0) (by decide)⟩

end Piano

namespace Piano

/-- A raw note whose `midi` is the non-integer number 60.5. -/
def c8raw : RawNote :=
  { timeMs := some 0, time := none, durationMs := none, duration := none
    midi := some (121 / 2) }

/-- C8 counterexample: `parseChart` accepts a note whose `midi` is the
non-integer 60.5 (the code checks only `typeof` and the [0,127] range,
not integrality), so the claimed rejection of non-integer `midi` fails. -/
theorem C8_counterexample :
    c8raw.midi = some (121 / 2 : ℚ) ∧
    (∀ z : ℤ, (121 : ℚ) / 2 ≠ (z : ℚ)) ∧
    (parseChart (some [c8raw])).toOption.isSome = true := by
  refine ⟨rfl, ?_, ?_⟩
  · intro z hz
    have h2 : (121 : ℚ) = 2 * (z : ℚ) := by
      field_simp at hz
      linarith
    have h3 : (121 : ℤ) = 2 * z := by exact_mod_cast h2
    omega
  · rw [parseChart_isOk]
    norm_num [List.all_cons, noteOk, c8raw, Option.orElse]

end Piano

namespace Piano

/-! ## Transport.js

`performance.now()` is passed explicitly as `now`. -/

/-- The fields of a `Transport` instance. -/
structure Transport where
  startTime : Option ℚ
  pauseTime : Option ℚ
  pausedDuration : ℚ
  isPlaying : Bool
  isPaused : Bool
deriving DecidableEq, Repr

/-- `new Transport()`, and the state after `stop()`. -/
def Transport.init : Transport :=
  { startTime := none, pauseTime := none, pausedDuration := 0
    isPlaying := false, isPaused := false }

/-- `Transport.start()` at instant `now`. -/
def Transport.start (now : ℚ) (t : Transport) : Transport :=
  if t.isPlaying && !t.isPaused then t
  else
    let t1 :=
      match t.isPaused, t.pauseTime with
      | true, some pt =>
          { t with pausedDuration := t.pausedDuration + (now - pt)
                   pauseTime := none, isPaused := false }
      | _, _ =>
          { t with startTime := some now, pausedDuration := 0, pauseTime := none }
    { t1 with isPlaying := true }

/-- `Transport.pause()` at instant `now`. -/
def Transport.pause (now : ℚ) (t : Transport) : Transport :=
  if !t.isPlaying || t.isPaused then t
  else { t with pauseTime := some now, isPaused := true }

/-- `Transport.stop()`. -/
def Transport.stop (_t : Transport) : Transport := Transport.init

/-- `Transport.getCurrentTimeMs()` at instant `now`. -/
def Transport.getCurrentTimeMs (now : ℚ) (t : Transport) : ℚ :=
  if !t.isPlaying then 0
  else
    match t.startTime with
    | none => 0
    | some st =>
      match t.isPaused, t.pauseTime with
      | true, some pt => pt - st - t.pausedDuration
      | _, _ => now - st - t.pausedDuration

/-- `Transport.isActive()`. -/
def Transport.isActive (t : Transport) : Bool :=
  t.isPlaying && !t.isPaused

end Piano

namespace Piano

/-- C9: `getCurrentTimeMs` returns 0 when not playing; paused it returns
the frozen value `pauseInstant − origin − accumulatedPausedDuration`, the
same whatever real time passes; actively playing it returns
`now − origin − accumulatedPausedDuration`; and `start()` from the paused
state folds the elapsed paused interval into the accumulator, so elapsed
time reported after resuming never includes the time spent paused. -/
theorem C9_transport_time (t : Transport) (now now1 now2 : ℚ) :
    (t.isPlaying = false → Transport.getCurrentTimeMs now t = 0) ∧
    (∀ st pt, t.isPlaying = true → t.startTime = some st →
       t.isPaused = true → t.pauseTime = some pt →
       Transport.getCurrentTimeMs now1 t = pt - st - t.pausedDuration ∧
       Transport.getCurrentTimeMs now1 t = Transport.getCurrentTimeMs now2 t) ∧
    (∀ st, t.isPlaying = true → t.startTime = some st → t.isPaused = false →
       Transport.getCurrentTimeMs now t = now - st - t.pausedDuration) ∧
    (∀ st pt, t.startTime = some st → t.isPaused = true → t.pauseTime = some pt →
       (Transport.start now t).pausedDuration = t.pausedDuration + (now - pt) ∧
       (∀ n, Transport.getCurrentTimeMs n (Transport.start now t)
          = n - st - (t.pausedDuration + (now - pt)))) := by
  refine ⟨?_, ?_, ?_, ?_⟩
  · intro hp
    simp [Transport.getCurrentTimeMs, hp]
  · intro st pt hp hst hpa hpt
    constructor <;>
      simp [Transport.getCurrentTimeMs, hp, hst, hpa, hpt]
  · intro st hp hst hpa
    simp [Transport.getCurrentTimeMs, hp, hst, hpa]
  · intro st pt hst hpa hpt
    have hstart :
        Transport.start now t =
          { t with pausedDuration := t.pausedDuration + (now - pt)
                   pauseTime := none, isPaused := false, isPlaying := true } := by
      simp [Transport.start, hpa, hpt]
    rw [hstart]
    exact ⟨rfl, fun n => by simp [Transport.getCurrentTimeMs, hst]⟩

/-- A transport paused at instant 1000 after starting at instant 0. -/
def pausedTransport : Transport :=
  { startTime := some 0, pauseTime := some 1000, pausedDuration := 0
    isPlaying := true, isPaused := true }

/-- Witness for C9 at a concrete paused transport: frozen at 1000 no
matter the reading instant, and resuming at 1500 excludes the 500 ms
spent paused. -/
theorem C9_transport_time_witness :
    (pausedTransport.isPlaying = false → Transport.getCurrentTimeMs 1500 pausedTransport = 0) ∧
    (∀ st pt, pausedTransport.isPlaying = true → pausedTransport.startTime = some st →
       pausedTransport.isPaused = true → pausedTransport.pauseTime = some pt →
       Transport.getCurrentTimeMs 2000 pausedTransport = pt - st - pausedTransport.pausedDuration ∧
       Transport.getCurrentTimeMs 2000 pausedTransport = Transport.getCurrentTimeMs 9000 pausedTransport) ∧
    (∀ st, pausedTransport.isPlaying = true → pausedTransport.startTime = some st →
       pausedTransport.isPaused = false →
       Transport.getCurrentTimeMs 1500 pausedTransport = 1500 - st - pausedTransport.pausedDuration) ∧
    (∀ st pt, pausedTransport.startTime = some st → pausedTransport.isPaused = true →
       pausedTransport.pauseTime = some pt →
       (Transport.start 1500 pausedTransport).pausedDuration
          = pausedTransport.pausedDuration + (1500 - pt) ∧
       (∀ n, Transport.getCurrentTimeMs n (Transport.start 1500 pausedTransport)
          = n - st - (pausedTransport.pausedDuration + (1500 - pt)))) :=
  C9_transport_time pausedTransport 1500 2000 9000

end Piano

namespace Piano

/-! ## GameEngine.js

The `requestAnimationFrame` loop itself (`startGameLoop`/`stopGameLoop`)
is scheduling and is not modelled; `update()` is modelled as the function
the loop invokes. Callback invocations are modelled as emitted events.
JavaScript's mutation of a note object found inside `this.notes` is
modelled by returning the index of that note in the `notes` list. -/

/-- `GameState` constants. -/
inductive GameState where
  | idle
  | playing
  | paused
  | finished
deriving DecidableEq, Repr

/-- A callback invocation. -/
inductive Event where
  | noteHit (noteId : String) (r : HitResult)
  | noteMiss (noteId : String)
  | updateEvt
  | finishEvt
deriving DecidableEq, Repr

/-- The condition `delta <= windows.good && delta < bestDelta` of the
`findBestMatch` loop (`bestDelta` starts at Infinity, so any in-window
delta beats an empty accumulator). -/
def betterCandidate (delta good : ℚ) (best : Option (ℕ × Note × ℚ × HitResult)) : Bool :=
  decide (delta ≤ good) &&
    (match best with
     | none => true
     | some b => decide (delta < b.2.2.1))

/-- `findBestMatch(midiNote, currentTimeMs, activeNotes, windows)` loop,
carrying the running best match (index into the engine's note list, the
note, its delta, its classification). A candidate replaces the best only
when strictly closer (`delta < bestDelta`, starting from Infinity). -/
def findBestMatchGo (midiNote currentTimeMs : ℚ) (windows : HitWindows) :
    List Note → ℕ → Option (ℕ × Note × ℚ × HitResult) → Option (ℕ × Note × ℚ × HitResult)
  | [], _, best => best
  | n :: rest, i, best =>
      let best' :=
        if n.midi == midiNote && !n.hit then
          let delta := |currentTimeMs - n.timeMs|
          if betterCandidate delta windows.good best then
            some (i, n, delta, classifyHit delta true windows)
          else best
        else best
      findBestMatchGo midiNote currentTimeMs windows rest (i + 1) best'

/-- `findBestMatch` over the engine's notes. The JavaScript filters to
unhit notes first and skips hit notes again inside the loop; scanning the
full list while skipping hit notes is the same search, and the returned
index plays the role of the returned object reference. -/
def findBestMatch (midiNote currentTimeMs : ℚ) (notes : List Note) (windows : HitWindows) :
    Option (ℕ × Note × ℚ × HitResult) :=
  findBestMatchGo midiNote currentTimeMs windows notes 0 none

/-- Replace the note at an index (the in-place mutation of a note object
reached through the array). -/
def setNote : List Note → ℕ → Note → List Note
  | [], _, _ => []
  | _ :: rest, 0, x => x :: rest
  | n :: rest, i + 1, x => n :: setNote rest i x

/-- The fields of a `GameEngine` instance (with the default
configuration; callbacks are events, the frame loop is external). -/
structure GameEngine where
  transport : Transport
  scoring : ScoringEngine
  hitWindows : HitWindows
  state : GameState
  chart : Option Chart
  notes : List Note
deriving DecidableEq, Repr

/-- `new GameEngine()` with default options. -/
def GameEngine.init : GameEngine :=
  { transport := Transport.init, scoring := ScoringEngine.reset
    hitWindows := DEFAULT_HIT_WINDOWS, state := GameState.idle
    chart := none, notes := [] }

/-- `loadChart(chartData)`: parse (propagating a validation error), clone
the parsed notes with pristine `hit`/`hitResult`, reset scoring, go IDLE. -/
def GameEngine.loadChart (chartData : Option (List RawNote)) (e : GameEngine) :
    Except String GameEngine :=
  match parseChart chartData with
  | Except.error msg => Except.error msg
  | Except.ok c =>
      Except.ok
        { e with chart := some c
                 notes := c.notes.map (fun n => { n with hit := false, hitResult := none })
                 scoring := ScoringEngine.reset
                 state := GameState.idle }

/-- `start()` at instant `now`: precondition error without a chart,
otherwise start the transport and go PLAYING. -/
def GameEngine.start (now : ℚ) (e : GameEngine) : Except String GameEngine :=
  match e.chart with
  | none => Except.error "No chart loaded"
  | some _ =>
      Except.ok { e with transport := e.transport.start now, state := GameState.playing }

/-- `pause()` at instant `now`: pauses the transport and sets PAUSED
(unconditionally — there is no state guard in the source). -/
def GameEngine.pause (now : ℚ) (e : GameEngine) : GameEngine :=
  { e with transport := Transport.pause now e.transport, state := GameState.paused }

/-- `resume()` at instant `now`: starts the transport and sets PLAYING
(unconditionally — there is no state guard in the source). -/
def GameEngine.resume (now : ℚ) (e : GameEngine) : GameEngine :=
  { e with transport := Transport.start now e.transport, state := GameState.playing }

/-- `stop()`: reset transport, go IDLE, restore pristine notes from the
chart when one is loaded, reset scoring. -/
def GameEngine.stop (e : GameEngine) : GameEngine :=
  { e with transport := Transport.stop e.transport
           state := GameState.idle
           notes :=
             match e.chart with
             | some c => c.notes.map (fun n => { n with hit := false, hitResult := none })
             | none => e.notes
           scoring := ScoringEngine.reset }

/-- `restart()` at instant `now`: `stop()` then `start()`. -/
def GameEngine.restart (now : ℚ) (e : GameEngine) : Except String GameEngine :=
  GameEngine.start now (GameEngine.stop e)

/-- The object `handleKeyPress` returns on a match. -/
structure KeyPressResult where
  hitResult : HitResult
  note : Note
  scoreResult : ScoreResult
deriving DecidableEq, Repr

/-- `handleKeyPress(midiNote)` at instant `now`: returns the new engine
state, the returned value (none outside PLAYING, on no match, and on the
wrong-note branch), and the emitted events. -/
def GameEngine.handleKeyPress (now midiNote : ℚ) (e : GameEngine) :
    GameEngine × Option KeyPressResult × List Event :=
  if e.state ≠ GameState.playing then (e, none, [])
  else
    let currentTime := Transport.getCurrentTimeMs now e.transport
    match findBestMatch midiNote currentTime e.notes e.hitWindows with
    | some (i, n, delta, hr) =>
        let marked := { n with hit := true, hitResult := some hr }
        let notes1 := setNote e.notes i marked
        let sr := e.scoring.recordHit hr
          (some { noteId := n.id, expectedMidi := n.midi, actualMidi := some midiNote
                  deltaMs := delta })
        ({ e with notes := notes1, scoring := sr.1 },
         some { hitResult := hr, note := marked, scoreResult := sr.2 },
         [Event.noteHit marked.id hr])
    | none =>
        match e.notes.find?
            (fun n => !n.hit && decide (|currentTime - n.timeMs| ≤ e.hitWindows.good)) with
        | some nb =>
            let sr := e.scoring.recordHit HitResult.wrong_note
              (some { noteId := nb.id, expectedMidi := nb.midi, actualMidi := some midiNote
                      deltaMs := |currentTime - nb.timeMs| })
            ({ e with scoring := sr.1 }, none, [])
        | none => (e, none, [])

/-- The per-note body of `update()`'s miss sweep, threading the scoring
state and collecting miss events. -/
def resolveMisses (t : ℚ) (w : HitWindows) :
    List Note → ScoringEngine → List Note × ScoringEngine × List Event
  | [], s => ([], s, [])
  | n :: rest, s =>
      if !n.hit && isNoteMissed n.timeMs t w then
        let n1 := { n with hit := true, hitResult := some HitResult.miss }
        let s1 := (s.recordHit HitResult.miss
          (some { noteId := n.id, expectedMidi := n.midi, actualMidi := none
                  deltaMs := t - n.timeMs })).1
        let r := resolveMisses t w rest s1
        (n1 :: r.1, r.2.1, Event.noteMiss n.id :: r.2.2)
      else
        let r := resolveMisses t w rest s
        (n :: r.1, r.2.1, r.2.2)

/-- `update()` at instant `now`: sweep misses, then read
`this.chart.duration` (a `TypeError` when no chart is loaded — there is
no state guard in the source), finish when everything is resolved and the
clock is 500 ms past the chart end, otherwise emit the update event. -/
def GameEngine.update (now : ℚ) (e : GameEngine) : Except String (GameEngine × List Event) :=
  let t := Transport.getCurrentTimeMs now e.transport
  let r := resolveMisses t e.hitWindows e.notes e.scoring
  let e1 := { e with notes := r.1, scoring := r.2.1 }
  match e.chart with
  | none => Except.error "TypeError: Cannot read properties of null (reading 'duration')"
  | some c =>
      if r.1.all (fun n => n.hit) && decide (t > c.duration + 500) then
        Except.ok ({ e1 with state := GameState.finished, transport := Transport.stop e1.transport },
          r.2.2 ++ [Event.finishEvt])
      else
        Except.ok (e1, r.2.2 ++ [Event.updateEvt])

end Piano

namespace Piano

/-- A correct-note classification is never WRONG_NOTE. -/
theorem classifyHit_true_ne_wrong (d : ℚ) (w : HitWindows) :
    classifyHit d true w ≠ HitResult.wrong_note := by
  unfold classifyHit
  simp only [Bool.not_true, Bool.false_eq_true, if_false]
  split_ifs <;> simp

/-- `recordHit` always increments `totalNotes`. -/
theorem recordHit_totalNotes (s : ScoringEngine) (k : HitResult) (ctx : Option NoteInfo) :
    (s.recordHit k ctx).1.totalNotes = s.totalNotes + 1 := by
  rw [recordHit_eq]
  split_ifs <;> rfl

/-- `recordHit` increments the WRONG_NOTE count exactly for WRONG_NOTE. -/
theorem recordHit_wrong_note_count (s : ScoringEngine) (k : HitResult) (ctx : Option NoteInfo) :
    (s.recordHit k ctx).1.hitCounts.wrong_note
      = s.hitCounts.wrong_note + (if k = HitResult.wrong_note then 1 else 0) := by
  rw [recordHit_eq]
  cases k <;> simp [isMissKind, HitCounts.inc]

/-- `countResolved`: the number of notes whose `hit` flag is set. -/
def countResolved (notes : List Note) : ℕ :=
  (notes.filter (fun n => n.hit)).length

/-- `countResolved` over a cons. -/
theorem countResolved_cons (n : Note) (l : List Note) :
    countResolved (n :: l) = (if n.hit then 1 else 0) + countResolved l := by
  by_cases h : n.hit <;> simp [countResolved, List.filter, h] <;> omega

/-- Replacing an unhit note by a hit one raises `countResolved` by one. -/
theorem countResolved_setNote (notes : List Note) (i : ℕ) (n x : Note)
    (hg : notes.get? i = some n) (hn : n.hit = false) (hx : x.hit = true) :
    countResolved (setNote notes i x) = countResolved notes + 1 := by
  induction notes generalizing i with
  | nil => simp at hg
  | cons m rest ih =>
    cases i with
    | zero =>
      simp only [List.get?] at hg
      obtain rfl : m = n := by injection hg
      simp [setNote, countResolved_cons, hn, hx]
      omega
    | succ j =>
      simp only [List.get?] at hg
      simp [setNote, countResolved_cons, ih j hg]
      omega

/-- Re-initialised notes are all unresolved. -/
theorem countResolved_map_unhit (l : List Note) :
    countResolved (l.map (fun n => { n with hit := false, hitResult := none })) = 0 := by
  induction l with
  | nil => rfl
  | cons n rest ih => simpa [countResolved_cons] using ih

end Piano

namespace Piano

/-- Soundness of the `findBestMatch` loop: a returned match is either the
accumulator or an unhit note of the pressed pitch at its position in the
scanned suffix, with its delta and classification. -/
theorem findBestMatchGo_sound (p t : ℚ) (w : HitWindows) (notes : List Note) :
    ∀ (i : ℕ) (best : Option (ℕ × Note × ℚ × HitResult))
      (j : ℕ) (n : Note) (d : ℚ) (hr : HitResult),
      findBestMatchGo p t w notes i best = some (j, n, d, hr) →
      (best = some (j, n, d, hr) ∨
       ∃ k, k < notes.length ∧ j = i + k ∧ notes.get? k = some n ∧
         n.hit = false ∧ n.midi = p ∧ d = |t - n.timeMs| ∧
         hr = classifyHit d true w) := by
  induction notes with
  | nil =>
    intro i best j n d hr h
    exact Or.inl h
  | cons m rest ih =>
    intro i best j n d hr h
    simp only [findBestMatchGo] at h
    by_cases hc : (m.midi == p && !m.hit) = true
    · rw [if_pos hc] at h
      by_cases hb : betterCandidate |t - m.timeMs| w.good best = true
      · rw [if_pos hb] at h
        rcases ih (i + 1) _ j n d hr h with hacc | ⟨k, hk, hj, hg, hrest⟩
        · simp only [Option.some.injEq, Prod.mk.injEq] at hacc
          obtain ⟨h1, h2, h3, h4⟩ := hacc
          subst h1; subst h2; subst h3; subst h4
          refine Or.inr ⟨0, by simp, by omega, rfl, ?_, ?_, rfl, rfl⟩
          · simpa using (Bool.and_elim_right hc)
          · simpa [beq_iff_eq] using (Bool.and_elim_left hc)
        · exact Or.inr ⟨k + 1, by simpa using Nat.succ_lt_succ hk,
            by omega, by simpa using hg, hrest⟩
      · rw [if_neg hb] at h
        rcases ih (i + 1) _ j n d hr h with hacc | ⟨k, hk, hj, hg, hrest⟩
        · exact Or.inl hacc
        · exact Or.inr ⟨k + 1, by simpa using Nat.succ_lt_succ hk,
            by omega, by simpa using hg, hrest⟩
    · rw [if_neg hc] at h
      rcases ih (i + 1) _ j n d hr h with hacc | ⟨k, hk, hj, hg, hrest⟩
      · exact Or.inl hacc
      · exact Or.inr ⟨k + 1, by simpa using Nat.succ_lt_succ hk,
          by omega, by simpa using hg, hrest⟩

/-- Soundness of `findBestMatch`: the match is an unhit note of the
pressed pitch at the returned index, with its delta and classification. -/
theorem findBestMatch_sound (p t : ℚ) (w : HitWindows) (notes : List Note)
    (j : ℕ) (n : Note) (d : ℚ) (hr : HitResult)
    (h : findBestMatch p t notes w = some (j, n, d, hr)) :
    notes.get? j = some n ∧ n.hit = false ∧ n.midi = p ∧
    d = |t - n.timeMs| ∧ hr = classifyHit d true w := by
  rcases findBestMatchGo_sound p t w notes 0 none j n d hr h with hacc | ⟨k, _, hj, hres⟩
  · simp at hacc
  · obtain rfl : j = k := by omega
    exact hres

/-- When no unhit note of the pressed pitch lies within the good window,
the `findBestMatch` loop returns its accumulator unchanged from `none`. -/
theorem findBestMatchGo_none (p t : ℚ) (w : HitWindows) (notes : List Note)
    (h : ∀ n ∈ notes, n.hit = false → n.midi = p → ¬(|t - n.timeMs| ≤ w.good)) :
    ∀ i, findBestMatchGo p t w notes i none = none := by
  induction notes with
  | nil => intro i; rfl
  | cons m rest ih =>
    intro i
    have hrest : ∀ n ∈ rest, n.hit = false → n.midi = p → ¬(|t - n.timeMs| ≤ w.good) :=
      fun n hn => h n (List.mem_cons_of_mem m hn)
    simp only [findBestMatchGo]
    by_cases hc : (m.midi == p && !m.hit) = true
    · rw [if_pos hc]
      have hhit : m.hit = false := by simpa using (Bool.and_elim_right hc)
      have hmidi : m.midi = p := by simpa [beq_iff_eq] using (Bool.and_elim_left hc)
      have hwin : ¬(|t - m.timeMs| ≤ w.good) := h m (List.mem_cons_self m rest) hhit hmidi
      rw [if_neg (by simp [betterCandidate, hwin])]
      exact ih hrest (i + 1)
    · rw [if_neg hc]
      exact ih hrest (i + 1)

/-- When no unhit note of the pressed pitch lies within the good window,
`findBestMatch` finds nothing. -/
theorem findBestMatch_eq_none (p t : ℚ) (w : HitWindows) (notes : List Note)
    (h : ∀ n ∈ notes, n.hit = false → n.midi = p → ¬(|t - n.timeMs| ≤ w.good)) :
    findBestMatch p t notes w = none :=
  findBestMatchGo_none p t w notes h 0

end Piano

namespace Piano

/-- The miss sweep is the identity when no unresolved note is overdue. -/
theorem resolveMisses_id (t : ℚ) (w : HitWindows) (notes : List Note) (s : ScoringEngine)
    (h : ∀ n ∈ notes, isNoteMissed n.timeMs t w = false) :
    resolveMisses t w notes s = (notes, s, []) := by
  induction notes with
  | nil => rfl
  | cons n rest ih =>
    have hn : isNoteMissed n.timeMs t w = false := h n (List.mem_cons_self n rest)
    have hrest := ih (fun m hm => h m (List.mem_cons_of_mem n hm))
    simp [resolveMisses, hn, hrest]

/-- Accounting of the miss sweep: the growth of `totalNotes` equals the
growth of the resolved-note count, and the WRONG_NOTE count is
untouched. -/
theorem resolveMisses_accounting (t : ℚ) (w : HitWindows) :
    ∀ (notes : List Note) (s : ScoringEngine),
      (resolveMisses t w notes s).2.1.totalNotes + countResolved notes
        = s.totalNotes + countResolved (resolveMisses t w notes s).1 ∧
      (resolveMisses t w notes s).2.1.hitCounts.wrong_note = s.hitCounts.wrong_note := by
  intro notes
  induction notes with
  | nil => intro s; exact ⟨rfl, rfl⟩
  | cons n rest ih =>
    intro s
    by_cases hc : (!n.hit && isNoteMissed n.timeMs t w) = true
    · have hhit : n.hit = false := by
        have h := Bool.and_elim_left hc
        simpa using h
      have hunfold : resolveMisses t w (n :: rest) s =
          ({ n with hit := true, hitResult := some HitResult.miss }
              :: (resolveMisses t w rest ((s.recordHit HitResult.miss
                    (some { noteId := n.id, expectedMidi := n.midi, actualMidi := none
                            deltaMs := t - n.timeMs })).1)).1,
           (resolveMisses t w rest ((s.recordHit HitResult.miss
                (some { noteId := n.id, expectedMidi := n.midi, actualMidi := none
                        deltaMs := t - n.timeMs })).1)).2.1,
           Event.noteMiss n.id
              :: (resolveMisses t w rest ((s.recordHit HitResult.miss
                    (some { noteId := n.id, expectedMidi := n.midi, actualMidi := none
                            deltaMs := t - n.timeMs })).1)).2.2) := by
        simp only [resolveMisses, if_pos hc]
      obtain ⟨ih1, ih2⟩ := ih ((s.recordHit HitResult.miss
        (some { noteId := n.id, expectedMidi := n.midi, actualMidi := none
                deltaMs := t - n.timeMs })).1)
      rw [hunfold]
      constructor
      · rw [recordHit_totalNotes] at ih1
        simp [countResolved_cons, hhit]
        omega
      · simpa [recordHit_wrong_note_count] using ih2
    · have hunfold : resolveMisses t w (n :: rest) s =
          (n :: (resolveMisses t w rest s).1,
           (resolveMisses t w rest s).2.1,
           (resolveMisses t w rest s).2.2) := by
        simp only [resolveMisses, if_neg hc]
      obtain ⟨ih1, ih2⟩ := ih s
      rw [hunfold]
      refine ⟨?_, ih2⟩
      simp only [countResolved_cons]
      by_cases hh : n.hit <;> simp [hh] <;> omega

/-- C4 corrected: `update()` has no state guard. Its effect on notes,
scoring, transport and emitted events is the same whatever the engine
state field holds; with no chart loaded any call fails (the read of
`this.chart.duration`); with a chart loaded but the transport not playing
the current time reads 0, so (times and durations being non-negative) no
note is resolved, nothing is recorded and no transition happens — but the
`onUpdate` callback is still invoked. -/
theorem C4_update_unguarded (e : GameEngine) (now : ℚ) :
    (e.chart = none →
       GameEngine.update now e
         = Except.error "TypeError: Cannot read properties of null (reading 'duration')") ∧
    (∀ c, e.chart = some c → e.transport.isPlaying = false →
       (∀ n ∈ e.notes, 0 ≤ n.timeMs) → 0 ≤ e.hitWindows.good → 0 ≤ c.duration →
       GameEngine.update now e = Except.ok (e, [Event.updateEvt])) ∧
    (∀ σ, (GameEngine.update now { e with state := σ }).map
            (fun p => (p.1.notes, p.1.scoring, p.1.transport, p.2))
          = (GameEngine.update now e).map
            (fun p => (p.1.notes, p.1.scoring, p.1.transport, p.2))) := by
  refine ⟨?_, ?_, ?_⟩
  · intro hc
    simp [GameEngine.update, hc]
  · intro c hc hp hn hw hd
    have ht : Transport.getCurrentTimeMs now e.transport = 0 := by
      simp [Transport.getCurrentTimeMs, hp]
    have hmiss : ∀ n ∈ e.notes, isNoteMissed n.timeMs 0 e.hitWindows = false := by
      intro n hmem
      simp only [isNoteMissed, decide_eq_false_iff_not, not_lt]
      have := hn n hmem
      linarith
    simp only [GameEngine.update, ht, resolveMisses_id 0 e.hitWindows e.notes e.scoring hmiss,
      hc]
    rw [if_neg]
    · rw [← hc]
      exact rfl
    · intro hcond
      have := (Bool.and_elim_right hcond)
      simp only [decide_eq_true_eq] at this
      linarith
  · intro σ
    simp only [GameEngine.update]
    cases e.chart with
    | none => rfl
    | some c =>
      by_cases hc :
          ((resolveMisses (Transport.getCurrentTimeMs now e.transport) e.hitWindows
              e.notes e.scoring).1.all (fun n => n.hit)
            && decide (Transport.getCurrentTimeMs now e.transport > c.duration + 500)) = true <;>
        simp [hc, Except.map]

/-- C4 counterexample: a direct `update()` call on a freshly constructed
engine (IDLE, no chart) fails instead of being a no-op. -/
theorem C4_counterexample :
    GameEngine.init.state = GameState.idle ∧
    GameEngine.init.chart = none ∧
    GameEngine.update 0 GameEngine.init
      = Except.error "TypeError: Cannot read properties of null (reading 'duration')" :=
  ⟨rfl, rfl, rfl⟩

/-- An engine with an empty chart loaded and a never-started transport. -/
def idleEngineWithChart : GameEngine :=
  { transport := Transport.init, scoring := ScoringEngine.reset
    hitWindows := DEFAULT_HIT_WINDOWS, state := GameState.idle
    chart := some { notes := [], duration := 0, noteCount := 0 }, notes := [] }

/-- Witness for C4's theorem at a concrete engine: an IDLE engine with a
chart resolves nothing but still emits the update event, and a fresh
engine with no chart fails. -/
theorem C4_update_unguarded_witness :
    (GameEngine.init.chart = none →
       GameEngine.update 0 GameEngine.init
         = Except.error "TypeError: Cannot read properties of null (reading 'duration')") ∧
    GameEngine.update 0 idleEngineWithChart
      = Except.ok (idleEngineWithChart, [Event.updateEvt]) :=
  ⟨(C4_update_unguarded GameEngine.init 0).1,
   (C4_update_unguarded idleEngineWithChart 0).2.1
     { notes := [], duration := 0, noteCount := 0 } rfl rfl
     (by intro n hmem; simp [idleEngineWithChart] at hmem)
     (by norm_num [idleEngineWithChart, DEFAULT_HIT_WINDOWS])
     le_rfl⟩

/-- C5 corrected: `start()` fails with the precondition error exactly
when no chart is loaded (and otherwise moves any state to PLAYING), but
`pause()` and `resume()` are unguarded: from every state `pause()` sets
PAUSED and `resume()` sets PLAYING; `stop()` sets IDLE from every
state. -/
theorem C5_state_transitions (e : GameEngine) (now : ℚ) :
    (e.chart = none → GameEngine.start now e = Except.error "No chart loaded") ∧
    (∀ c, e.chart = some c →
       GameEngine.start now e
         = Except.ok { e with transport := e.transport.start now, state := GameState.playing }) ∧
    (GameEngine.pause now e).state = GameState.paused ∧
    (GameEngine.resume now e).state = GameState.playing ∧
    (GameEngine.stop e).state = GameState.idle := by
  refine ⟨?_, ?_, rfl, rfl, rfl⟩
  · intro h
    simp [GameEngine.start, h]
  · intro c h
    simp [GameEngine.start, h]

/-- C5 counterexample: `pause()` called in IDLE moves the state to
PAUSED instead of leaving it unchanged. -/
theorem C5_counterexample :
    GameEngine.init.state = GameState.idle ∧
    (GameEngine.pause 0 GameEngine.init).state = GameState.paused :=
  ⟨rfl, rfl⟩

/-- Witness for C5's theorem at a concrete engine: the fresh engine has
no chart, so `start()` fails; `pause()`/`resume()`/`stop()` move it to
PAUSED/PLAYING/IDLE. -/
theorem C5_state_transitions_witness :
    (GameEngine.init.chart = none →
       GameEngine.start 0 GameEngine.init = Except.error "No chart loaded") ∧
    (∀ c, GameEngine.init.chart = some c →
       GameEngine.start 0 GameEngine.init
         = Except.ok { GameEngine.init with
             transport := GameEngine.init.transport.start 0, state := GameState.playing }) ∧
    (GameEngine.pause 0 GameEngine.init).state = GameState.paused ∧
    (GameEngine.resume 0 GameEngine.init).state = GameState.playing ∧
    (GameEngine.stop GameEngine.init).state = GameState.idle :=
  C5_state_transitions GameEngine.init 0

end Piano

namespace Piano

/-- A WRONG_NOTE recording resets the streak. -/
theorem recordHit_wrong_streak (s : ScoringEngine) (ctx : Option NoteInfo) :
    (s.recordHit HitResult.wrong_note ctx).1.streak = 0 := by
  rw [recordHit_eq]
  rfl

/-- A WRONG_NOTE recording with context appends that context to the
mistakes log. -/
theorem recordHit_wrong_mistakes (s : ScoringEngine) (i : NoteInfo) :
    (s.recordHit HitResult.wrong_note (some i)).1.mistakes
      = s.mistakes ++ [(⟨i, HitResult.wrong_note⟩ : Mistake)] := by
  rw [recordHit_eq]
  rfl

/-- C6: in PLAYING, when no unresolved note of the pressed pitch is
within the good window but some unresolved note (necessarily of another
pitch) is, `handleKeyPress` records a WRONG_NOTE — resetting the streak,
counting the hit, and appending a mistake carrying that note's id and
midi — yet leaves every note's `hit`/`hitResult` unchanged, emits no
event, and returns none. -/
theorem C6_wrongNote_branch (e : GameEngine) (now p : ℚ) (nb : Note)
    (hst : e.state = GameState.playing)
    (hnomatch : ∀ n ∈ e.notes, n.hit = false → n.midi = p →
        ¬(|Transport.getCurrentTimeMs now e.transport - n.timeMs| ≤ e.hitWindows.good))
    (hfound : e.notes.find?
        (fun n => !n.hit
          && decide (|Transport.getCurrentTimeMs now e.transport - n.timeMs| ≤ e.hitWindows.good))
        = some nb) :
    (GameEngine.handleKeyPress now p e).2.1 = none ∧
    (GameEngine.handleKeyPress now p e).1.notes = e.notes ∧
    (GameEngine.handleKeyPress now p e).2.2 = [] ∧
    (GameEngine.handleKeyPress now p e).1.scoring
      = (e.scoring.recordHit HitResult.wrong_note
          (some { noteId := nb.id, expectedMidi := nb.midi, actualMidi := some p
                  deltaMs := |Transport.getCurrentTimeMs now e.transport - nb.timeMs| })).1 ∧
    (GameEngine.handleKeyPress now p e).1.scoring.streak = 0 ∧
    (GameEngine.handleKeyPress now p e).1.scoring.totalNotes = e.scoring.totalNotes + 1 ∧
    (GameEngine.handleKeyPress now p e).1.scoring.mistakes
      = e.scoring.mistakes
        ++ [(⟨{ noteId := nb.id, expectedMidi := nb.midi, actualMidi := some p
                deltaMs := |Transport.getCurrentTimeMs now e.transport - nb.timeMs| },
              HitResult.wrong_note⟩ : Mistake)] ∧
    nb.midi ≠ p := by
  have hpred := List.find?_some hfound
  have hmem := List.mem_of_find?_eq_some hfound
  have hhit : nb.hit = false := by
    have h := Bool.and_elim_left hpred
    simpa using h
  have hwin : |Transport.getCurrentTimeMs now e.transport - nb.timeMs| ≤ e.hitWindows.good := by
    have h := Bool.and_elim_right hpred
    simpa using h
  have hne : nb.midi ≠ p := by
    intro hmid
    exact hnomatch nb hmem hhit hmid hwin
  have hkey : GameEngine.handleKeyPress now p e
      = ({ e with scoring := (e.scoring.recordHit HitResult.wrong_note
            (some { noteId := nb.id, expectedMidi := nb.midi, actualMidi := some p
                    deltaMs := |Transport.getCurrentTimeMs now e.transport - nb.timeMs| })).1 },
         none, []) := by
    simp only [GameEngine.handleKeyPress, hst, ne_eq, not_true_eq_false, if_false,
      findBestMatch_eq_none p (Transport.getCurrentTimeMs now e.transport) e.hitWindows
        e.notes hnomatch,
      hfound]
  rw [hkey]
  refine ⟨rfl, rfl, rfl, rfl, ?_, ?_, ?_, hne⟩ <;> dsimp only <;>
    first
      | exact recordHit_wrong_streak _ _
      | exact recordHit_totalNotes _ _ _
      | exact recordHit_wrong_mistakes _ _

end Piano

namespace Piano

/-- A pristine middle-C note at time 0. -/
def note60 : Note :=
  { id := "note-0", timeMs := 0, midi := 60, durationMs := 500, noteName := "C4"
    hit := false, hitResult := none }

/-- A playing engine holding the single unresolved note `note60`, with
the transport freshly started at instant 0. -/
def c6engine : GameEngine :=
  { transport := { startTime := some 0, pauseTime := none, pausedDuration := 0
                   isPlaying := true, isPaused := false }
    scoring := ScoringEngine.reset, hitWindows := DEFAULT_HIT_WINDOWS
    state := GameState.playing
    chart := some { notes := [note60], duration := 500, noteCount := 1 }
    notes := [note60] }

/-- Witness for C6 at a concrete input: at time 0 the pitch-61 press
misses the only note (pitch 60, in window), which is scored WRONG_NOTE
with no note resolution and a none return. -/
theorem C6_wrongNote_branch_witness :
    (GameEngine.handleKeyPress 0 61 c6engine).2.1 = none ∧
    (GameEngine.handleKeyPress 0 61 c6engine).1.notes = c6engine.notes ∧
    (GameEngine.handleKeyPress 0 61 c6engine).2.2 = [] ∧
    (GameEngine.handleKeyPress 0 61 c6engine).1.scoring
      = (c6engine.scoring.recordHit HitResult.wrong_note
          (some { noteId := note60.id, expectedMidi := note60.midi, actualMidi := some 61
                  deltaMs := |Transport.getCurrentTimeMs 0 c6engine.transport - note60.timeMs| })).1 ∧
    (GameEngine.handleKeyPress 0 61 c6engine).1.scoring.streak = 0 ∧
    (GameEngine.handleKeyPress 0 61 c6engine).1.scoring.totalNotes
      = c6engine.scoring.totalNotes + 1 ∧
    (GameEngine.handleKeyPress 0 61 c6engine).1.scoring.mistakes
      = c6engine.scoring.mistakes
        ++ [(⟨{ noteId := note60.id, expectedMidi := note60.midi, actualMidi := some 61
                deltaMs := |Transport.getCurrentTimeMs 0 c6engine.transport - note60.timeMs| },
              HitResult.wrong_note⟩ : Mistake)] ∧
    note60.midi ≠ 61 :=
  C6_wrongNote_branch c6engine 0 61 note60 rfl
    (by
      intro n hn hhit hmidi
      simp only [c6engine, List.mem_singleton] at hn
      subst hn
      norm_num [note60] at hmidi)
    (by
      simp only [c6engine, List.find?, note60, Transport.getCurrentTimeMs,
        DEFAULT_HIT_WINDOWS]
      norm_num)

end Piano

namespace Piano

/-- Engine states reachable within one session through the operations the
claim names: construction, `loadChart`, `start`, `handleKeyPress`,
`update` (failing calls leave the engine unchanged and are not steps). -/
inductive Reachable : GameEngine → Prop where
  | init : Reachable GameEngine.init
  | load (e e' : GameEngine) (raw : Option (List RawNote)) :
      Reachable e → GameEngine.loadChart raw e = Except.ok e' → Reachable e'
  | start (e e' : GameEngine) (now : ℚ) :
      Reachable e → GameEngine.start now e = Except.ok e' → Reachable e'
  | keypress (e : GameEngine) (now p : ℚ) :
      Reachable e → Reachable (GameEngine.handleKeyPress now p e).1
  | update (e e' : GameEngine) (now : ℚ) (evs : List Event) :
      Reachable e → GameEngine.update now e = Except.ok (e', evs) → Reachable e'

/-- C7 amended: in every reachable state, `totalNotes` equals the number
of resolved notes **plus the number of WRONG_NOTE recordings** — the
wrong-note branch counts a hit without resolving any note, so the claimed
equality with the resolved-note count alone holds only while
`hitCounts[WRONG_NOTE] = 0`. -/
theorem C7_totalNotes_resolved (e : GameEngine) (h : Reachable e) :
    e.scoring.totalNotes = countResolved e.notes + e.scoring.hitCounts.wrong_note := by
  induction h with
  | init => rfl
  | load e0 e1 raw hr hload ih =>
    simp only [GameEngine.loadChart] at hload
    cases hp : parseChart raw with
    | error msg => rw [hp] at hload; simp at hload
    | ok c =>
      rw [hp] at hload
      simp only [Except.ok.injEq] at hload
      subst hload
      simp [ScoringEngine.reset, countResolved_map_unhit]
  | start e0 e1 now hr hstart ih =>
    simp only [GameEngine.start] at hstart
    cases hp : e0.chart with
    | none => rw [hp] at hstart; simp at hstart
    | some c =>
      rw [hp] at hstart
      simp only [Except.ok.injEq] at hstart
      subst hstart
      simpa using ih
  | keypress e0 now p hr ih =>
    by_cases hst : e0.state ≠ GameState.playing
    · have hkey : GameEngine.handleKeyPress now p e0 = (e0, none, []) := by
        simp only [GameEngine.handleKeyPress, if_pos hst]
      rw [hkey]
      exact ih
    · cases hm : findBestMatch p (Transport.getCurrentTimeMs now e0.transport)
          e0.notes e0.hitWindows with
      | some q =>
        obtain ⟨i, n, d, hq⟩ := q
        obtain ⟨hget, hhit, hmidi, hd, hcls⟩ :=
          findBestMatch_sound p (Transport.getCurrentTimeMs now e0.transport)
            e0.hitWindows e0.notes i n d hq hm
        have hkey : (GameEngine.handleKeyPress now p e0).1
            = { e0 with
                notes := setNote e0.notes i { n with hit := true, hitResult := some hq }
                scoring := (e0.scoring.recordHit hq
                  (some { noteId := n.id, expectedMidi := n.midi, actualMidi := some p
                          deltaMs := d })).1 } := by
          simp only [GameEngine.handleKeyPress, if_neg hst, hm]
        rw [hkey]
        have hcount : countResolved
            (setNote e0.notes i { n with hit := true, hitResult := some hq })
            = countResolved e0.notes + 1 :=
          countResolved_setNote e0.notes i n _ hget hhit rfl
        have hwrong : hq ≠ HitResult.wrong_note := by
          rw [hcls]
          exact classifyHit_true_ne_wrong d e0.hitWindows
        have htot := recordHit_totalNotes e0.scoring hq
          (some { noteId := n.id, expectedMidi := n.midi, actualMidi := some p, deltaMs := d })
        have hwc := recordHit_wrong_note_count e0.scoring hq
          (some { noteId := n.id, expectedMidi := n.midi, actualMidi := some p, deltaMs := d })
        rw [if_neg hwrong] at hwc
        simp only [htot, hcount, hwc]
        omega
      | none =>
        cases hf : e0.notes.find?
            (fun n => !n.hit && decide
              (|Transport.getCurrentTimeMs now e0.transport - n.timeMs|
                ≤ e0.hitWindows.good)) with
        | some nb =>
          have hkey : (GameEngine.handleKeyPress now p e0).1
              = { e0 with
                  scoring := (e0.scoring.recordHit HitResult.wrong_note
                    (some { noteId := nb.id, expectedMidi := nb.midi, actualMidi := some p
                            deltaMs := |Transport.getCurrentTimeMs now e0.transport
                              - nb.timeMs| })).1 } := by
            simp only [GameEngine.handleKeyPress, if_neg hst, hm, hf]
          rw [hkey]
          have htot := recordHit_totalNotes e0.scoring HitResult.wrong_note
            (some { noteId := nb.id, expectedMidi := nb.midi, actualMidi := some p
                    deltaMs := |Transport.getCurrentTimeMs now e0.transport - nb.timeMs| })
          have hwc := recordHit_wrong_note_count e0.scoring HitResult.wrong_note
            (some { noteId := nb.id, expectedMidi := nb.midi, actualMidi := some p
                    deltaMs := |Transport.getCurrentTimeMs now e0.transport - nb.timeMs| })
          rw [if_pos rfl] at hwc
          simp only [htot, hwc]
          omega
        | none =>
          have hkey : (GameEngine.handleKeyPress now p e0).1 = e0 := by
            simp only [GameEngine.handleKeyPress, if_neg hst, hm, hf]
          rw [hkey]
          exact ih
  | update e0 e1 now evs hr hupd ih =>
    obtain ⟨hacc1, hacc2⟩ := resolveMisses_accounting
      (Transport.getCurrentTimeMs now e0.transport) e0.hitWindows e0.notes e0.scoring
    simp only [GameEngine.update] at hupd
    cases hp : e0.chart with
    | none => rw [hp] at hupd; simp at hupd
    | some c =>
      rw [hp] at hupd
      dsimp only at hupd
      by_cases hcond : ((resolveMisses (Transport.getCurrentTimeMs now e0.transport)
            e0.hitWindows e0.notes e0.scoring).1.all (fun n => n.hit)
          && decide (Transport.getCurrentTimeMs now e0.transport > c.duration + 500)) = true
      · rw [if_pos hcond] at hupd
        simp only [Except.ok.injEq, Prod.mk.injEq] at hupd
        obtain ⟨he1, _⟩ := hupd
        subst he1
        simp only []
        omega
      · rw [if_neg hcond] at hupd
        simp only [Except.ok.injEq, Prod.mk.injEq] at hupd
        obtain ⟨he1, _⟩ := hupd
        subst he1
        simp only []
        omega

/-- Witness for C7's amended theorem at a concrete reachable state: the
freshly constructed engine. -/
theorem C7_totalNotes_resolved_witness :
    GameEngine.init.scoring.totalNotes
      = countResolved GameEngine.init.notes
        + GameEngine.init.scoring.hitCounts.wrong_note :=
  C7_totalNotes_resolved GameEngine.init Reachable.init

end Piano

namespace Piano

/-- Raw chart with one middle-C note at time 0. -/
def c7raw : List RawNote :=
  [{ timeMs := some 0, time := none, durationMs := some 500, duration := none, midi := some 60 }]

/-- Parse of `c7raw`. -/
def c7chart : Chart := { notes := [note60], duration := 500, noteCount := 1 }

/-- `parseChart` on `c7raw`. -/
theorem parseChart_c7raw_eq : parseChart (some c7raw) = Except.ok c7chart := by
  have h1 : parseNotes 0 c7raw = Except.ok [note60] := by decide
  have hsort : List.mergeSort [note60] noteLe = [note60] :=
    List.mergeSort_of_sorted (by decide)
  simp only [parseChart]
  rw [h1]
  simp only [hsort]
  norm_num [note60, c7chart]

/-- The engine after loading `c7raw`. -/
def c7e1 : GameEngine :=
  { transport := Transport.init, scoring := ScoringEngine.reset
    hitWindows := DEFAULT_HIT_WINDOWS, state := GameState.idle
    chart := some c7chart, notes := [note60] }

/-- `loadChart` step of the trace. -/
theorem loadChart_c7_eq :
    GameEngine.loadChart (some c7raw) GameEngine.init = Except.ok c7e1 := by
  simp only [GameEngine.loadChart, parseChart_c7raw_eq]
  rfl

/-- The engine after `start()` at instant 0. -/
def c7e2 : GameEngine :=
  { c7e1 with
      transport := { startTime := some 0, pauseTime := none, pausedDuration := 0
                     isPlaying := true, isPaused := false }
      state := GameState.playing }

/-- `start` step of the trace. -/
theorem start_c7_eq : GameEngine.start 0 c7e1 = Except.ok c7e2 := rfl

/-- The engine after pressing pitch 61 at instant 0: the pitch-60 note
stays unresolved while the scoring counts one WRONG_NOTE. -/
def c7e3 : GameEngine :=
  { c7e2 with
      scoring := { score := 0, streak := 0, maxStreak := 0
                   hitCounts := { perfect := 0, great := 0, good := 0, miss := 0, wrong_note := 1 }
                   totalNotes := 1
                   mistakes := [(⟨{ noteId := "note-0", expectedMidi := 60, actualMidi := some 61
                                    deltaMs := 0 },
                                  HitResult.wrong_note⟩ : Mistake)] } }

/-- `handleKeyPress` step of the trace. -/
theorem handleKeyPress_c7_eq :
    GameEngine.handleKeyPress 0 61 c7e2 = (c7e3, none, []) := by
  have hm : findBestMatch 61 (Transport.getCurrentTimeMs 0 c7e2.transport)
      c7e2.notes c7e2.hitWindows = none := by
    apply findBestMatch_eq_none
    intro n hn hhit hmidi
    simp only [c7e2, c7e1, List.mem_singleton] at hn
    subst hn
    norm_num [note60] at hmidi
  have hT : Transport.getCurrentTimeMs 0 c7e2.transport = 0 := by
    norm_num [c7e2, c7e1, Transport.getCurrentTimeMs]
  have hf : c7e2.notes.find?
      (fun n => !n.hit && decide
        (|Transport.getCurrentTimeMs 0 c7e2.transport - n.timeMs| ≤ c7e2.hitWindows.good))
      = some note60 := by
    rw [hT]
    simp only [c7e2, c7e1, List.find?]
    norm_num [note60, DEFAULT_HIT_WINDOWS]
  simp only [GameEngine.handleKeyPress]
  rw [if_neg (show ¬(c7e2.state ≠ GameState.playing) by simp [c7e2])]
  rw [hm, hf]
  dsimp only
  rw [recordHit_eq]
  simp only [isMissKind, beq_self_eq_true, Bool.or_true, if_true, hT]
  norm_num [c7e3, c7e2, c7e1, ScoringEngine.reset, HitCounts.inc, BASE_SCORES,
    notesPerMultiplier, maxMultiplier, note60]

/-- C7 counterexample: the reachable state `c7e3` (load a one-note chart,
start, press a wrong pitch at time 0) has `totalNotes = 1` while no note
has its `hit` flag set. -/
theorem C7_counterexample :
    Reachable c7e3 ∧ c7e3.scoring.totalNotes = 1 ∧ countResolved c7e3.notes = 0 := by
  have r1 : Reachable c7e1 :=
    Reachable.load GameEngine.init c7e1 (some c7raw) Reachable.init loadChart_c7_eq
  have r2 : Reachable c7e2 := Reachable.start c7e1 c7e2 0 r1 start_c7_eq
  have r3 : Reachable (GameEngine.handleKeyPress 0 61 c7e2).1 :=
    Reachable.keypress c7e2 0 61 r2
  rw [show (GameEngine.handleKeyPress 0 61 c7e2).1 = c7e3 by rw [handleKeyPress_c7_eq]] at r3
  exact ⟨r3, rfl, rfl⟩

end Piano
